import Mathlib

/-!
Shallow embedding of the LearnHub backend (src/main.py, src/schemas.py).

Conventions of the embedding:
* The MongoDB collections are modelled as Lean lists held in a `DB` record;
  `insert_one` appends at the end, `update_one` with `upsert=True` replaces the
  first matching row or appends a fresh one, `find_one` returns the first
  matching row, `find` returns the rows in collection order.
* Python `datetime` values are modelled as integers (an abstract linear time
  scale); only their ordering matters to the code under study.
* Python `float` percentages are modelled as exact rationals; `round(x, 2)` is
  modelled by `round2` below (rounding half up at the second decimal -- no
  boundary case of the claims lands on an exact half).
* The external primitives `hashlib.sha256(...).hexdigest()` and
  `secrets.token_hex(8)` are passed in as explicit parameters (`sha`, `salt`),
  and the random `uuid4().hex` string is passed as a list of nibbles.
* Timestamp bookkeeping fields (`created_at`, `updated_at`, `issued_at`) and
  purely presentational course fields (description, category, thumbnail, ...)
  are omitted from the records: no claim mentions them.
-/

deriving instance DecidableEq for Except

namespace LearnHub

/-- A JSON value submitted as a quiz answer: either an integer (Python `int`,
which is what `isinstance(ans_index, int)` accepts) or some other value,
kept opaque. -/
inductive AnsVal where
  | int (n : Int)
  | other (tag : String)
  deriving DecidableEq

/-- One playlist entry of a course (`{id, title, url, duration, chapter}`;
only the fields the handlers read are kept). -/
structure Lecture where
  id : String
  title : String
  deriving DecidableEq

/-- One question of an embedded quiz; `answer` is `q.get("answer")`, absent
keys give `none`. -/
structure Question where
  id : String
  question : String
  choices : List String
  answer : Option Int
  deriving DecidableEq

/-- One quiz embedded in a course. -/
structure Quiz where
  id : String
  title : String
  questions : List Question
  deriving DecidableEq

/-- A course document; `id` is the string form of its `_id`. -/
structure Course where
  id : String
  title : String
  playlist : List Lecture
  quizzes : List Quiz
  certificate_threshold : Option Int
  deriving DecidableEq

/-- A user document; `id` is the string form of its `_id`. -/
structure User where
  id : String
  name : String
  email : String
  password_hash : String
  deriving DecidableEq

/-- A row of the `tokens` collection. -/
structure Token where
  token : String
  user_id : String
  created_at : Int
  expires_at : Option Int
  deriving DecidableEq

/-- A row of the `lectureprogress` collection. -/
structure LectureProgress where
  user_id : String
  course_id : String
  lecture_id : String
  watched_seconds : Int
  completed : Bool
  deriving DecidableEq

/-- A row of the `courseprogress` collection. -/
structure CourseProgress where
  user_id : String
  course_id : String
  completed_lecture_ids : List String
  percentage : ℚ
  deriving DecidableEq

/-- A row of the `quizresult` collection. -/
structure QuizResult where
  user_id : String
  course_id : String
  quiz_id : String
  score_percent : ℚ
  answers : List (String × AnsVal)
  passed : Bool
  deriving DecidableEq

/-- A row of the `certificate` collection. -/
structure Certificate where
  user_id : String
  course_id : String
  quiz_id : String
  score_percent : ℚ
  certificate_code : String
  deriving DecidableEq

/-- One reference entry attached to a chatbot reply. -/
structure ChatRef where
  lecture_id : String
  title : String
  suggested_timestamp : Int
  deriving DecidableEq

/-- A row of the `chatlog` collection. -/
structure ChatLog where
  user_id : String
  course_id : Option String
  prompt : String
  response : String
  refs : List ChatRef
  deriving DecidableEq

/-- The document store: one list per collection, in insertion order. -/
structure DB where
  users : List User
  tokens : List Token
  courses : List Course
  lectureprogress : List LectureProgress
  courseprogress : List CourseProgress
  quizresults : List QuizResult
  certificates : List Certificate
  chatlog : List ChatLog
  deriving DecidableEq

/-- Request body of `PATCH /courses/{id}/progress` (`ProgressUpdate`). -/
structure ProgressUpdate where
  lecture_id : String
  watched_seconds : Int
  completed : Bool
  deriving DecidableEq

/-- Request body of `POST /quizzes/submit` (`QuizSubmission`); the `answers`
dict is an association list with unique keys. -/
structure QuizSubmission where
  course_id : String
  quiz_id : String
  answers : List (String × AnsVal)
  deriving DecidableEq

/-- Request body of `POST /chatbot` (`ChatRequest`). -/
structure ChatRequest where
  course_id : Option String
  message : String
  deriving DecidableEq

/-- The `HTTPException`s raised by the handlers under study, identified by
their status/detail. -/
inductive HError where
  | invalidId
  | missingToken
  | invalidToken
  | expiredToken
  | userNotFound
  | courseNotFound
  | quizNotFound
  deriving DecidableEq

/-- Response of `update_lecture_progress`. -/
structure UpdateResp where
  ok : Bool
  percentage : ℚ
  completed : List String
  deriving DecidableEq

/-- Response of `submit_quiz`. -/
structure SubmitResp where
  score : ℚ
  passed : Bool
  certificate : Option Certificate
  deriving DecidableEq

/-- Response of `chatbot`. -/
structure ChatResp where
  reply : String
  references : List ChatRef
  deriving DecidableEq

/-- Python `round(x, 2)` on the exact rational value: round to the nearest
multiple of 1/100 (ties, which never occur in the scenarios under study,
go up here where Python floats would go to even).  For `x = p/q` in lowest
terms with `q > 0`, `x·100 + 1/2 = (200p + q)/(2q)`, so the numerator of the
result is `⌊x·100 + 1/2⌋ = (200p + q).fdiv (2q)` (see `round2_eq_floor`). -/
def round2 (x : ℚ) : ℚ := mkRat ((200 * x.num + (x.den : Int)).fdiv (2 * (x.den : Int))) 100

/-- ASCII lowercasing of one character, as Python `str.lower` acts on the
ASCII range (all strings the handlers lowercase are ASCII). -/
def lowerChar (c : Char) : Char :=
  if 'A' ≤ c ∧ c ≤ 'Z' then Char.ofNat (c.toNat + 32) else c

/-- Python `s.lower()` (ASCII range). -/
def strLower (s : String) : String := ⟨s.data.map lowerChar⟩

/-- Whitespace stripped by Python `str.strip()` (the characters occurring in
this code base). -/
def isSpaceChar (c : Char) : Bool := c = ' ' || c = '\t' || c = '\n' || c = '\r'

/-- Python `s.strip()`. -/
def strTrim (s : String) : String :=
  ⟨((s.data.dropWhile isSpaceChar).reverse.dropWhile isSpaceChar).reverse⟩

/-- Everything after the first space: Python `s.split(" ", 1)[1]` (the callers
only evaluate this when a space is present). -/
def dropThroughSpace : List Char → List Char
  | [] => []
  | c :: cs => if c = ' ' then cs else dropThroughSpace cs

/-- One hexadecimal digit (either case). -/
def isHexChar (c : Char) : Bool :=
  c.isDigit || ('a' ≤ c ∧ c ≤ 'f') || ('A' ≤ c ∧ c ≤ 'F')

/-- The strings accepted by `bson.ObjectId(...)`: 24 hexadecimal characters. -/
def validOid (s : String) : Bool := s.length == 24 && s.data.all isHexChar

/-- `oid(id_str)` from main.py: returns the id, or raises a 400
`HTTPException` for a malformed id. -/
def oid (s : String) : Except HError String :=
  if validOid s then .ok s else .error .invalidId

/-! ### Auth module (`require_auth`, `hash_password`, `verify_password`) -/

/-- The user lookup at the end of `require_auth`
(`db["user"].find_one({"_id": tok["user_id"]})`). -/
def lookupAuthUser (db : DB) (tok : Token) : Except HError User :=
  match db.users.find? (fun u => u.id == tok.user_id) with
  | none => .error .userNotFound
  | some u => .ok u

/-- `require_auth` from main.py: parse the bearer header, look the token up,
reject it when `expires_at < now`, then resolve the user.  `now` is the value
of `now_utc()` at the check. -/
def require_auth (db : DB) (authorization : Option String) (now : Int) : Except HError User :=
  match authorization with
  | none => .error .missingToken
  | some auth =>
    if ("bearer ".data).isPrefixOf (auth.data.map lowerChar) then
      match db.tokens.find? (fun t => t.token == (⟨dropThroughSpace auth.data⟩ : String)) with
      | none => .error .invalidToken
      | some tok =>
        match tok.expires_at with
        | some e => if e < now then .error .expiredToken else lookupAuthUser db tok
        | none => lookupAuthUser db tok
    else .error .missingToken

/-- `hash_password` from main.py, with the external primitives made explicit:
`sha` stands for `hashlib.sha256(·.encode()).hexdigest()` and `salt` for the
random `secrets.token_hex(8)` (16 hexadecimal characters, never a `$`). -/
def hash_password (sha : String → String) (salt : String) (password : String) : String :=
  salt ++ "$" ++ sha (salt ++ password)

/-- Python `s.split(sep)` for a one-character separator, on character lists:
`splitOnChar c [] = [[]]` just as `"".split("$") == [""]`. -/
def splitOnChar (c : Char) : List Char → List (List Char)
  | [] => [[]]
  | a :: as =>
    if a = c then [] :: splitOnChar c as
    else
      match splitOnChar c as with
      | [] => [[a]]
      | g :: gs => (a :: g) :: gs

/-- `verify_password` from main.py: split the stored value on `"$"`; the
destructuring `salt, digest = ...` raises `ValueError` (caught, returning
`False`) unless the split has exactly two parts. -/
def verify_password (sha : String → String) (password : String) (password_hash : String) : Bool :=
  match (splitOnChar '$' password_hash.data).map (fun l => (⟨l⟩ : String)) with
  | [salt, digest] => sha (salt ++ password) == digest
  | _ => false

/-! ### Progress module -/

/-- The filter `{"user_id": u, "course_id": c}` on `lectureprogress` rows. -/
def isFor (uid cid : String) (r : LectureProgress) : Bool :=
  r.user_id == uid && r.course_id == cid

/-- The filter `{"user_id": u, "course_id": c, "completed": True}`. -/
def isForCompleted (uid cid : String) (r : LectureProgress) : Bool :=
  isFor uid cid r && r.completed

/-- The upsert key `{"user_id": u, "course_id": c, "lecture_id": l}`. -/
def lpKey (uid cid lid : String) (r : LectureProgress) : Bool :=
  isFor uid cid r && r.lecture_id == lid

/-- `update_one(filter, {"$set": ...}, upsert=True)` on `lectureprogress`:
replace the payload fields of the first row matching the key, or append a
fresh row. -/
def upsertLP : List LectureProgress → String → String → ProgressUpdate → List LectureProgress
  | [], uid, cid, u => [⟨uid, cid, u.lecture_id, u.watched_seconds, u.completed⟩]
  | r :: rs, uid, cid, u =>
    if lpKey uid cid u.lecture_id r then
      ⟨r.user_id, r.course_id, r.lecture_id, u.watched_seconds, u.completed⟩ :: rs
    else r :: upsertLP rs uid cid u

/-- The key `{"user_id": u, "course_id": c}` on `courseprogress` rows. -/
def cpKey (uid cid : String) (r : CourseProgress) : Bool :=
  r.user_id == uid && r.course_id == cid

/-- `update_one(..., upsert=True)` on `courseprogress`. -/
def upsertCP : List CourseProgress → String → String → List String → ℚ → List CourseProgress
  | [], uid, cid, ids, pct => [⟨uid, cid, ids, pct⟩]
  | r :: rs, uid, cid, ids, pct =>
    if cpKey uid cid r then ⟨r.user_id, r.course_id, ids, pct⟩ :: rs
    else r :: upsertCP rs uid cid ids pct

/-- `find_one` on `courseprogress` for a user and course. -/
def findCP (db : DB) (uid cid : String) : Option CourseProgress :=
  db.courseprogress.find? (cpKey uid cid)

/-- The `lectureprogress` rows of one user and course, in collection order. -/
def rowsFor (db : DB) (uid cid : String) : List LectureProgress :=
  db.lectureprogress.filter (isFor uid cid)

/-- `update_lecture_progress` from main.py (`PATCH /courses/{id}/progress`).
The per-lecture row is upserted *before* the course is resolved, so the first
component (the post-state) reflects that write even on the 400/404 paths. -/
def update_lecture_progress (db : DB) (uid cid : String) (u : ProgressUpdate) :
    DB × Except HError UpdateResp :=
  let db1 : DB := { db with lectureprogress := upsertLP db.lectureprogress uid cid u }
  match oid cid with
  | .error e => (db1, .error e)
  | .ok cid' =>
    match db1.courses.find? (fun c => c.id == cid') with
    | none => (db1, .error .courseNotFound)
    | some course =>
      let total : Nat := if course.playlist.length = 0 then 1 else course.playlist.length
      let completed_ids : List String :=
        (db1.lectureprogress.filter (isForCompleted uid cid)).map (fun lp => lp.lecture_id)
      let percent : ℚ := round2 (mkRat ((completed_ids.length : Int) * 100) total)
      let db2 : DB :=
        { db1 with courseprogress := upsertCP db1.courseprogress uid cid completed_ids percent }
      (db2, .ok ⟨true, percent, completed_ids⟩)

/-- Folding a sequence of `update_lecture_progress` calls for one user and
course through the store, keeping only the final state. -/
def runUpdates (db : DB) (uid cid : String) (us : List ProgressUpdate) : DB :=
  us.foldl (fun d u => (update_lecture_progress d uid cid u).1) db

/-- `get_course_progress` from main.py (`GET /courses/{id}/progress`): the
cached summary (zero-valued when absent) plus the per-lecture rows. -/
def get_course_progress (db : DB) (uid cid : String) : CourseProgress × List LectureProgress :=
  let prog : CourseProgress :=
    match findCP db uid cid with
    | some p => p
    | none => ⟨uid, cid, [], 0⟩
  (prog, rowsFor db uid cid)

/-! ### Quiz / certificate module -/

/-- Whether one question is answered correctly: the submitted value must be a
Python `int` equal to `q.get("answer")` (`isinstance(ans_index, int) and
ans_index == q.get("answer")`). -/
def answeredCorrectly (answers : List (String × AnsVal)) (q : Question) : Bool :=
  match answers.lookup q.id with
  | some (.int n) => q.answer == some n
  | _ => false

/-- The loop of `submit_quiz` counting exact matches. -/
def correctCount (quiz : Quiz) (answers : List (String × AnsVal)) : Nat :=
  quiz.questions.countP (answeredCorrectly answers)

/-- One nibble of `uuid4().hex`, uppercased (`.hex` is lowercase hexadecimal,
`.upper()` maps it to the corresponding uppercase digit). -/
def hexUpperChar (n : Fin 16) : Char :=
  if n.val < 10 then Char.ofNat (48 + n.val) else Char.ofNat (65 + (n.val - 10))

/-- `f"LH-{uuid4().hex[:8].upper()}"`, with the random uuid passed in as its
32 nibbles. -/
def genCertCode (uuidHex : List (Fin 16)) : String :=
  "LH-" ++ (⟨(uuidHex.take 8).map hexUpperChar⟩ : String)

/-- `submit_quiz` from main.py (`POST /quizzes/submit`).  Returns the
post-state and either a 400/404 error or the response; the state is unchanged
on every error path. -/
def submit_quiz (db : DB) (uid : String) (sub : QuizSubmission) (uuidHex : List (Fin 16)) :
    DB × Except HError SubmitResp :=
  match oid sub.course_id with
  | .error e => (db, .error e)
  | .ok cid =>
    match db.courses.find? (fun c => c.id == cid) with
    | none => (db, .error .courseNotFound)
    | some course =>
      match course.quizzes.find? (fun q => q.id == sub.quiz_id) with
      | none => (db, .error .quizNotFound)
      | some quiz =>
        let total : Nat := if quiz.questions.length = 0 then 1 else quiz.questions.length
        let correct : Nat := correctCount quiz sub.answers
        let score : ℚ := round2 (mkRat ((correct : Int) * 100) total)
        let passed : Bool := decide (((course.certificate_threshold.getD 70 : Int) : ℚ) ≤ score)
        let db1 : DB :=
          { db with quizresults :=
              db.quizresults ++ [⟨uid, sub.course_id, sub.quiz_id, score, sub.answers, passed⟩] }
        if passed then
          let cert : Certificate :=
            ⟨uid, sub.course_id, sub.quiz_id, score, genCertCode uuidHex⟩
          ({ db1 with certificates := db1.certificates ++ [cert] },
           .ok ⟨score, passed, some cert⟩)
        else (db1, .ok ⟨score, passed, none⟩)

/-! ### Chatbot module -/

/-- Python `pat in s` on strings: `pat` occurs as a contiguous substring. -/
def isSubList (pat : List Char) : List Char → Bool
  | [] => pat.isEmpty
  | c :: cs => pat.isPrefixOf (c :: cs) || isSubList pat cs

/-- `pat in s` for strings. -/
def containsSub (s pat : String) : Bool := isSubList pat.data s.data

/-- The canned tips of the rule table, in source order. -/
def tipState : String :=
  "Remember: useState returns [value, setValue]. Update state immutably."

def tipEffect : String :=
  "useEffect runs after render. Add dependencies to control when it runs."

def tipPerf : String :=
  "Consider useMemo/useCallback to memoize expensive calculations and handlers."

def tipGeneric : String :=
  "Focus on one concept at a time, review the lecture notes, and try a small hands-on example."

/-- `chatbot` from main.py (`POST /chatbot`).  The reply is built by the three
keyword rules in order, with the generic tip as fallback; the reference list
is drawn from the first two playlist items of the resolved course.  A
malformed (nonempty) `course_id` raises the 400 of `oid` before anything is
returned or logged. -/
def chatbot (db : DB) (uid : String) (req : ChatRequest) : DB × Except HError ChatResp :=
  let prompt : String := strLower (strTrim req.message)
  let tips : List String :=
    (if containsSub prompt "state" || containsSub prompt "use state" then [tipState] else []) ++
    (if containsSub prompt "effect" then [tipEffect] else []) ++
    (if containsSub prompt "performance" || containsSub prompt "optimize" then [tipPerf] else [])
  let tips : List String := if tips.isEmpty then [tipGeneric] else tips
  let response : String := String.intercalate " " tips
  let refsE : Except HError (List ChatRef) :=
    match req.course_id with
    | none => .ok []
    | some cid =>
      if cid = "" then .ok []
      else
        match oid cid with
        | .error e => .error e
        | .ok cid' =>
          .ok (match db.courses.find? (fun c => c.id == cid') with
               | none => []
               | some course =>
                 (course.playlist.take 2).map (fun lec => ⟨lec.id, lec.title, 60⟩))
  match refsE with
  | .error e => (db, .error e)
  | .ok refs =>
    ({ db with chatlog := db.chatlog ++ [⟨uid, req.course_id, req.message, response, refs⟩] },
     .ok ⟨response, refs⟩)

/-! ### Specification-side models

These definitions follow the wording of the specification (latest write per
distinct lecture id; ordered rule table).  They are related to the embedded
handlers by the theorems below. -/

/-- One upsert step on the `(lecture_id, completed)` projection of the
per-lecture rows of a fixed user and course. -/
def upsertPair : List (String × Bool) → String → Bool → List (String × Bool)
  | [], lid, c => [(lid, c)]
  | p :: ps, lid, c => if p.1 == lid then (p.1, c) :: ps else p :: upsertPair ps lid c

/-- The projected per-lecture state reached from `st` by a sequence of
updates. -/
def mstateFrom (st : List (String × Bool)) (us : List ProgressUpdate) : List (String × Bool) :=
  us.foldl (fun acc u => upsertPair acc u.lecture_id u.completed) st

/-- The projected per-lecture state of a sequence of updates, starting from a
course the user has not touched. -/
def mstate (us : List ProgressUpdate) : List (String × Bool) := mstateFrom [] us

/-- The `(lecture_id, completed)` projection of a per-lecture row. -/
def projLP (r : LectureProgress) : String × Bool := (r.lecture_id, r.completed)

/-- Whether the latest write for `lid` in the sequence has `completed=true`
(false when `lid` was never written). -/
def latestCompleted (us : List ProgressUpdate) (lid : String) : Bool :=
  match us.reverse.find? (fun u => u.lecture_id == lid) with
  | some u => u.completed
  | none => false

/-- The number `K` of the specification: how many distinct lecture ids have
their latest write with `completed=true`. -/
def distinctCompleted (us : List ProgressUpdate) : Nat :=
  ((us.map (fun u => u.lecture_id)).dedup).countP (latestCompleted us)

/-- The chatbot rule table as the specification states it: keywords checked
as substrings of the lowercased message, tips in fixed order. -/
def ruleTable : List (List String × String) :=
  [(["state"], tipState), (["effect"], tipEffect), (["performance", "optimize"], tipPerf)]

/-- The tips of the rules whose keyword occurs in the prompt, in rule order. -/
def matchingTips (prompt : String) : List String :=
  (ruleTable.filter (fun r => r.1.any (fun kw => containsSub prompt kw))).map (fun r => r.2)

/-! ### Concrete fixtures used by witnesses and counterexamples -/

/-- A well-formed `ObjectId` string for the sample course. -/
def courseOid : String := "aaaaaaaaaaaaaaaaaaaaaaaa"

def exQuestion1 : Question := ⟨"q1", "What hook manages state?", ["useState", "useEffect"], some 0⟩

def exQuestion2 : Question := ⟨"q2", "What renders UI?", ["Components", "Reducers"], some 0⟩

def exQuiz : Quiz := ⟨"quiz1", "Basics Quiz", [exQuestion1, exQuestion2]⟩

/-- A three-lecture course with one two-question quiz and threshold 70. -/
def exCourse : Course :=
  ⟨courseOid, "Modern React Foundations",
   [⟨"lec1", "Welcome"⟩, ⟨"lec2", "Components"⟩, ⟨"lec3", "State"⟩], [exQuiz], some 70⟩

def exDb : DB := ⟨[], [], [exCourse], [], [], [], [], []⟩

/-- The submission of the scenario: `q1` answered 0 (right), `q2` answered 1
(wrong). -/
def exSub50 : QuizSubmission := ⟨courseOid, "quiz1", [("q1", .int 0), ("q2", .int 1)]⟩

/-- A fully correct submission. -/
def exSubPass : QuizSubmission := ⟨courseOid, "quiz1", [("q1", .int 0), ("q2", .int 0)]⟩

/-- A submission naming a quiz id the course does not embed. -/
def exSubBadQuiz : QuizSubmission := ⟨courseOid, "nope", [("q1", .int 0)]⟩

/-- A fixed stand-in for `uuid4().hex` (32 nibbles). -/
def exUuid : List (Fin 16) := List.replicate 32 ⟨10, by decide⟩

def upd1 : ProgressUpdate := ⟨"lec1", 300, true⟩

def upd2 : ProgressUpdate := ⟨"lec2", 300, true⟩

/-- An update naming a lecture id outside every playlist. -/
def updBogus : ProgressUpdate := ⟨"bogus", 10, true⟩

/-- A course whose playlist has a single lecture. -/
def course10 : Course := ⟨courseOid, "Solo", [⟨"lec1", "Only"⟩], [], some 70⟩

def db10 : DB := ⟨[], [], [course10], [], [], [], [], []⟩

def user5 : User := ⟨"u1", "Ada", "ada@example.com", "h"⟩

/-- A token expiring at instant 100. -/
def tok5 : Token := ⟨"t1", "u1", 0, some 100⟩

def db5 : DB := ⟨[user5], [tok5], [], [], [], [], [], []⟩

/-! ### General lemmas about the embedded operations -/

/-- A well-formed id passes `oid` unchanged. -/
theorem oid_ok {s : String} (hv : validOid s = true) : oid s = .ok s := by
  simp [oid, hv]

/-- The per-lecture upsert always leaves a row carrying exactly the written
fields at the key. -/
theorem find?_upsertLP (rows : List LectureProgress) (uid cid : String) (u : ProgressUpdate) :
    (upsertLP rows uid cid u).find? (lpKey uid cid u.lecture_id) =
      some ⟨uid, cid, u.lecture_id, u.watched_seconds, u.completed⟩ := by
  induction rows with
  | nil => simp [upsertLP, List.find?, lpKey, isFor]
  | cons r rs ih =>
    by_cases h : lpKey uid cid u.lecture_id r = true
    · obtain ⟨⟨h1, h2⟩, h3⟩ :
        (r.user_id = uid ∧ r.course_id = cid) ∧ r.lecture_id = u.lecture_id := by
        simpa [lpKey, isFor] using h
      simp only [upsertLP, h, if_true]
      rw [List.find?_cons_of_pos _ (by simp [lpKey, isFor, h1, h2, h3])]
      simp [h1, h2, h3]
    · simp only [upsertLP, h, if_false, Bool.false_eq_true]
      rw [List.find?_cons_of_neg _ (by simp [h]), ih]

/-- The aggregate upsert always leaves the summary row carrying exactly the
written fields at the key. -/
theorem find?_upsertCP (rows : List CourseProgress) (uid cid : String)
    (ids : List String) (pct : ℚ) :
    (upsertCP rows uid cid ids pct).find? (cpKey uid cid) = some ⟨uid, cid, ids, pct⟩ := by
  induction rows with
  | nil => simp [upsertCP, List.find?, cpKey]
  | cons r rs ih =>
    by_cases h : cpKey uid cid r = true
    · obtain ⟨h1, h2⟩ : r.user_id = uid ∧ r.course_id = cid := by simpa [cpKey] using h
      simp only [upsertCP, h, if_true]
      rw [List.find?_cons_of_pos _ (by simp [cpKey, h1, h2])]
      simp [h1, h2]
    · simp only [upsertCP, h, if_false, Bool.false_eq_true]
      rw [List.find?_cons_of_neg _ (by simp [h]), ih]

/-- `if n = 0 then 1 else n` (Python `n or 1`) is `max 1 n`. -/
theorem ite_zero_eq_max (n : ℕ) : (if n = 0 then 1 else n) = max 1 n := by
  split <;> omega

/-- `round2` is indeed rounding to the nearest hundredth (half up):
`round2 x = ⌊x·100 + 1/2⌋ / 100`. -/
theorem round2_eq_floor (x : ℚ) : round2 x = (⌊x * 100 + 1/2⌋ : ℚ) / 100 := by
  have hx : x * 100 + 1/2 =
      ((200 * x.num + (x.den : ℤ) : ℤ) : ℚ) / ((2 * x.den : ℕ) : ℚ) := by
    have h := Rat.num_div_den x
    have hdnz : x.den ≠ 0 := x.den_nz
    generalize hn : x.num = n at *
    generalize hd : x.den = d at *
    rw [← h]
    have hd0 : ((d : ℚ)) ≠ 0 := Nat.cast_ne_zero.2 hdnz
    push_cast
    field_simp
    ring
  rw [round2, Rat.mkRat_eq_div, hx, Rat.floor_intCast_div_natCast]
  congr 2
  rw [Int.fdiv_eq_ediv _ (by positivity)]
  congr 1

/-- The exact rational the handlers round: `count·100 / max(1, total)`. -/
theorem mkRat_hundred (c n : ℕ) :
    (mkRat ((c : Int) * 100) (if n = 0 then 1 else n) : ℚ) = 100 * (c : ℚ) / (max 1 n : ℕ) := by
  rw [ite_zero_eq_max, Rat.mkRat_eq_div]
  push_cast
  ring

/-! ### C7 and its witness -/

/-- C7: for a course the user has not started (no `courseprogress` summary
row), `get_course_progress` succeeds and returns the zero-valued summary
(percentage 0, empty completed list) together with the user's per-lecture
rows for that course. -/
theorem getCourseProgress_zero_summary_C7 (db : DB) (uid cid : String)
    (h : findCP db uid cid = none) :
    get_course_progress db uid cid = (⟨uid, cid, [], 0⟩, rowsFor db uid cid) := by
  unfold get_course_progress
  rw [h]

theorem getCourseProgress_zero_summary_C7_witness :
    findCP exDb "u1" courseOid = none ∧
    get_course_progress exDb "u1" courseOid =
      (⟨"u1", courseOid, [], 0⟩, rowsFor exDb "u1" courseOid) :=
  ⟨by decide, getCourseProgress_zero_summary_C7 exDb "u1" courseOid (by decide)⟩

/-! ### C9 and its witness -/

/-- C9: `update_lecture_progress` writes the per-lecture row before resolving
the course: when the (well-formed) course id matches no course, the call
fails with the 404 `Course not found`, yet the per-lecture upsert has already
happened — the row carries the submitted fields — and only the aggregate
summary write is skipped. -/
theorem updateLectureProgress_upsert_before_lookup_C9 (db : DB) (uid cid : String)
    (u : ProgressUpdate) (hv : validOid cid = true)
    (hc : db.courses.find? (fun c => c.id == cid) = none) :
    update_lecture_progress db uid cid u =
      ({ db with lectureprogress := upsertLP db.lectureprogress uid cid u },
       .error .courseNotFound) ∧
    ((update_lecture_progress db uid cid u).1.lectureprogress.find?
        (lpKey uid cid u.lecture_id) =
      some ⟨uid, cid, u.lecture_id, u.watched_seconds, u.completed⟩) ∧
    (update_lecture_progress db uid cid u).1.courseprogress = db.courseprogress := by
  have hmain : update_lecture_progress db uid cid u =
      ({ db with lectureprogress := upsertLP db.lectureprogress uid cid u },
       .error .courseNotFound) := by
    unfold update_lecture_progress
    rw [oid_ok hv]
    simp only [hc]
  refine ⟨hmain, ?_, ?_⟩
  · rw [hmain]
    exact find?_upsertLP db.lectureprogress uid cid u
  · rw [hmain]

theorem updateLectureProgress_upsert_before_lookup_C9_witness :
    validOid "cccccccccccccccccccccccc" = true ∧
    update_lecture_progress exDb "u1" "cccccccccccccccccccccccc" upd1 =
      ({ exDb with lectureprogress :=
          (upsertLP exDb.lectureprogress "u1" "cccccccccccccccccccccccc" upd1) },
       .error .courseNotFound) ∧
    ((update_lecture_progress exDb "u1" "cccccccccccccccccccccccc" upd1).1.lectureprogress.find?
        (lpKey "u1" "cccccccccccccccccccccccc" upd1.lecture_id) =
      some ⟨"u1", "cccccccccccccccccccccccc", upd1.lecture_id,
            upd1.watched_seconds, upd1.completed⟩) ∧
    (update_lecture_progress exDb "u1" "cccccccccccccccccccccccc" upd1).1.courseprogress =
      exDb.courseprogress :=
  ⟨by decide,
   updateLectureProgress_upsert_before_lookup_C9 exDb "u1" "cccccccccccccccccccccccc" upd1
     (by decide) (by decide)⟩

/-! ### C4 and its witness -/

/-- C4: a submission whose (well-formed) course id matches no course, or whose
quiz id matches no quiz embedded in the resolved course, fails with the 404
`NotFoundError` and inserts nothing: the whole store — in particular the
QuizResult and Certificate collections — is returned unchanged. -/
theorem submitQuiz_notFound_no_insert_C4 (db : DB) (uid : String) (sub : QuizSubmission)
    (uuidHex : List (Fin 16)) (hv : validOid sub.course_id = true)
    (h : db.courses.find? (fun c => c.id == sub.course_id) = none ∨
         ∃ course, db.courses.find? (fun c => c.id == sub.course_id) = some course ∧
           course.quizzes.find? (fun q => q.id == sub.quiz_id) = none) :
    ∃ e, submit_quiz db uid sub uuidHex = (db, .error e) ∧
      (e = .courseNotFound ∨ e = .quizNotFound) ∧
      (submit_quiz db uid sub uuidHex).1.quizresults = db.quizresults ∧
      (submit_quiz db uid sub uuidHex).1.certificates = db.certificates := by
  rcases h with hc | ⟨course, hc, hq⟩
  · refine ⟨.courseNotFound, ?_, .inl rfl, ?_, ?_⟩ <;>
      · unfold submit_quiz
        rw [oid_ok hv]
        simp only [hc]
  · refine ⟨.quizNotFound, ?_, .inr rfl, ?_, ?_⟩ <;>
      · unfold submit_quiz
        rw [oid_ok hv]
        simp only [hc, hq]

theorem submitQuiz_notFound_no_insert_C4_witness :
    validOid exSubBadQuiz.course_id = true ∧
    (∃ e, submit_quiz exDb "u1" exSubBadQuiz exUuid = (exDb, .error e) ∧
      (e = .courseNotFound ∨ e = .quizNotFound) ∧
      (submit_quiz exDb "u1" exSubBadQuiz exUuid).1.quizresults = exDb.quizresults ∧
      (submit_quiz exDb "u1" exSubBadQuiz exUuid).1.certificates = exDb.certificates) :=
  ⟨by decide,
   submitQuiz_notFound_no_insert_C4 exDb "u1" exSubBadQuiz exUuid (by decide)
     (.inr ⟨exCourse, by decide, by decide⟩)⟩

/-! ### C1 and its witness -/

/-- C1: when course and quiz resolve, the submission is scored as
`round(100·correct/max(1, total_questions), 2)`, where `correct` counts the
questions whose submitted answer is an integer equal to the stored correct
index (`answeredCorrectly`); a missing or non-integer answer merely fails the
count instead of raising.  `passed` compares the score with the course
threshold (default 70). -/
theorem submitQuiz_score_C1 (db : DB) (uid : String) (sub : QuizSubmission)
    (uuidHex : List (Fin 16)) (course : Course) (quiz : Quiz)
    (hv : validOid sub.course_id = true)
    (hc : db.courses.find? (fun c => c.id == sub.course_id) = some course)
    (hq : course.quizzes.find? (fun q => q.id == sub.quiz_id) = some quiz) :
    ∃ resp : SubmitResp, (submit_quiz db uid sub uuidHex).2 = .ok resp ∧
      resp.score =
        round2 (100 * (quiz.questions.countP (answeredCorrectly sub.answers) : ℚ) /
          (max 1 quiz.questions.length : ℕ)) ∧
      resp.passed = decide (((course.certificate_threshold.getD 70 : Int) : ℚ) ≤ resp.score) := by
  unfold submit_quiz
  rw [oid_ok hv]
  simp only [hc, hq]
  rw [show correctCount quiz sub.answers =
        quiz.questions.countP (answeredCorrectly sub.answers) from rfl]
  rw [mkRat_hundred]
  by_cases hp : ((course.certificate_threshold.getD 70 : Int) : ℚ) ≤
      round2 (100 * (quiz.questions.countP (answeredCorrectly sub.answers) : ℚ) /
        (max 1 quiz.questions.length : ℕ))
  · rw [if_pos (decide_eq_true hp)]
    exact ⟨_, rfl, rfl, rfl⟩
  · rw [if_neg (by rw [decide_eq_false hp]; decide)]
    exact ⟨_, rfl, rfl, rfl⟩

theorem submitQuiz_score_C1_witness :
    validOid exSub50.course_id = true ∧
    (∃ resp : SubmitResp, (submit_quiz exDb "u1" exSub50 exUuid).2 = .ok resp ∧
      resp.score =
        round2 (100 * (exQuiz.questions.countP (answeredCorrectly exSub50.answers) : ℚ) /
          (max 1 exQuiz.questions.length : ℕ)) ∧
      resp.passed = decide (((exCourse.certificate_threshold.getD 70 : Int) : ℚ) ≤ resp.score)) ∧
    (submit_quiz exDb "u1" exSub50 exUuid).2 = .ok ⟨50, false, none⟩ :=
  ⟨by decide,
   submitQuiz_score_C1 exDb "u1" exSub50 exUuid exCourse exQuiz (by decide) (by decide)
     (by decide),
   by decide⟩

/-! ### C3 and its witness -/

/-- C3: a resolving submission always appends a QuizResult row recording
score, answers and outcome; `passed` compares the score with the course
threshold (default 70); exactly when passed, a Certificate whose code is the
fixed prefix `LH-` followed by 8 uppercase hexadecimal characters is appended
and returned inline, and otherwise no certificate is created and the
response's certificate field is empty. -/
theorem submitQuiz_result_certificate_C3 (db : DB) (uid : String) (sub : QuizSubmission)
    (uuidHex : List (Fin 16)) (course : Course) (quiz : Quiz)
    (hv : validOid sub.course_id = true)
    (hc : db.courses.find? (fun c => c.id == sub.course_id) = some course)
    (hq : course.quizzes.find? (fun q => q.id == sub.quiz_id) = some quiz)
    (hu : 8 ≤ uuidHex.length) :
    ∃ resp : SubmitResp, (submit_quiz db uid sub uuidHex).2 = .ok resp ∧
      (submit_quiz db uid sub uuidHex).1.quizresults =
        db.quizresults ++
          [⟨uid, sub.course_id, sub.quiz_id, resp.score, sub.answers, resp.passed⟩] ∧
      resp.passed = decide (((course.certificate_threshold.getD 70 : Int) : ℚ) ≤ resp.score) ∧
      (resp.passed = true →
        ∃ cert : Certificate, resp.certificate = some cert ∧
          (submit_quiz db uid sub uuidHex).1.certificates = db.certificates ++ [cert] ∧
          ∃ s : String, cert.certificate_code = "LH-" ++ s ∧ s.length = 8 ∧
            ∀ ch ∈ s.data,
              (48 ≤ ch.toNat ∧ ch.toNat ≤ 57) ∨ (65 ≤ ch.toNat ∧ ch.toNat ≤ 70)) ∧
      (resp.passed = false →
        resp.certificate = none ∧
        (submit_quiz db uid sub uuidHex).1.certificates = db.certificates) := by
  have hall : ∀ m : Fin 16,
      (48 ≤ (hexUpperChar m).toNat ∧ (hexUpperChar m).toNat ≤ 57) ∨
        (65 ≤ (hexUpperChar m).toNat ∧ (hexUpperChar m).toNat ≤ 70) := by decide
  have hcode : ∀ ch ∈ ((uuidHex.take 8).map hexUpperChar),
      (48 ≤ ch.toNat ∧ ch.toNat ≤ 57) ∨ (65 ≤ ch.toNat ∧ ch.toNat ≤ 70) := by
    intro ch hch
    obtain ⟨n, _, rfl⟩ := List.mem_map.1 hch
    exact hall n
  have hlen : ((⟨(uuidHex.take 8).map hexUpperChar⟩ : String)).length = 8 := by
    show ((uuidHex.take 8).map hexUpperChar).length = 8
    rw [List.length_map, List.length_take]
    omega
  unfold submit_quiz
  rw [oid_ok hv]
  simp only [hc, hq]
  by_cases hp : ((course.certificate_threshold.getD 70 : Int) : ℚ) ≤
      round2 (mkRat ((correctCount quiz sub.answers : Int) * 100)
        (if quiz.questions.length = 0 then 1 else quiz.questions.length))
  · rw [if_pos (decide_eq_true hp)]
    refine ⟨_, rfl, rfl, rfl, fun _ => ⟨_, rfl, rfl, ?_⟩,
      fun hfalse => absurd ((decide_eq_true hp).symm.trans hfalse) (by decide)⟩
    exact ⟨⟨(uuidHex.take 8).map hexUpperChar⟩, rfl, hlen, hcode⟩
  · rw [if_neg (by rw [decide_eq_false hp]; decide)]
    exact ⟨_, rfl, rfl, rfl,
      fun htrue => absurd ((decide_eq_false hp).symm.trans htrue) (by decide),
      fun _ => ⟨rfl, rfl⟩⟩

theorem submitQuiz_result_certificate_C3_witness :
    validOid exSubPass.course_id = true ∧ 8 ≤ exUuid.length ∧
    (∃ resp : SubmitResp, (submit_quiz exDb "u1" exSubPass exUuid).2 = .ok resp ∧
      (submit_quiz exDb "u1" exSubPass exUuid).1.quizresults =
        exDb.quizresults ++
          [⟨"u1", exSubPass.course_id, exSubPass.quiz_id, resp.score, exSubPass.answers,
            resp.passed⟩] ∧
      resp.passed = decide (((exCourse.certificate_threshold.getD 70 : Int) : ℚ) ≤ resp.score) ∧
      (resp.passed = true →
        ∃ cert : Certificate, resp.certificate = some cert ∧
          (submit_quiz exDb "u1" exSubPass exUuid).1.certificates =
            exDb.certificates ++ [cert] ∧
          ∃ s : String, cert.certificate_code = "LH-" ++ s ∧ s.length = 8 ∧
            ∀ ch ∈ s.data,
              (48 ≤ ch.toNat ∧ ch.toNat ≤ 57) ∨ (65 ≤ ch.toNat ∧ ch.toNat ≤ 70)) ∧
      (resp.passed = false →
        resp.certificate = none ∧
        (submit_quiz exDb "u1" exSubPass exUuid).1.certificates = exDb.certificates)) ∧
    (submit_quiz exDb "u1" exSubPass exUuid).2 =
      .ok ⟨100, true, some ⟨"u1", courseOid, "quiz1", 100, "LH-AAAAAAAA"⟩⟩ :=
  ⟨by decide, by decide,
   submitQuiz_result_certificate_C3 exDb "u1" exSubPass exUuid exCourse exQuiz (by decide)
     (by decide) (by decide) (by decide),
   by decide⟩

/-! ### C10 and its witness -/

/-- A row whose lecture id differs from the written one survives the
per-lecture upsert untouched. -/
theorem mem_upsertLP_of_ne (rows : List LectureProgress) (uid cid : String)
    (u : ProgressUpdate) (r : LectureProgress) (hr : r ∈ rows)
    (hne : r.lecture_id ≠ u.lecture_id) : r ∈ upsertLP rows uid cid u := by
  induction rows with
  | nil => cases hr
  | cons a as ih =>
    by_cases h : lpKey uid cid u.lecture_id a = true
    · simp only [upsertLP, h, if_true]
      rcases List.mem_cons.1 hr with rfl | hr'
      · obtain ⟨_, h3⟩ :
          (r.user_id = uid ∧ r.course_id = cid) ∧ r.lecture_id = u.lecture_id := by
          simpa [lpKey, isFor] using h
        exact absurd h3 hne
      · exact List.mem_cons_of_mem _ hr'
    · simp only [upsertLP, h, if_false, Bool.false_eq_true]
      rcases List.mem_cons.1 hr with rfl | hr'
      · exact List.mem_cons_self _ _
      · exact List.mem_cons_of_mem _ (ih hr')

/-- C10: the recomputed aggregate counts every completed row of the user and
course whether or not its lecture id occurs in the course playlist — such a
row still shows up in the returned completed list — and consequently the
stored percentage can exceed 100: completing `lec1` and then the
non-playlist id `bogus` on a 1-lecture course yields percentage 200. -/
theorem aggregate_counts_nonplaylist_C10 (db : DB) (uid cid : String)
    (course : Course) (u : ProgressUpdate) (r : LectureProgress)
    (hv : validOid cid = true)
    (hc : db.courses.find? (fun c => c.id == cid) = some course)
    (hr : r ∈ db.lectureprogress) (hcomp : isForCompleted uid cid r = true)
    (hne : r.lecture_id ≠ u.lecture_id)
    (_hout : r.lecture_id ∉ course.playlist.map Lecture.id) :
    (∃ resp : UpdateResp, (update_lecture_progress db uid cid u).2 = .ok resp ∧
      r.lecture_id ∈ resp.completed) ∧
    (update_lecture_progress (runUpdates db10 "u1" courseOid [upd1]) "u1" courseOid updBogus).2
      = .ok ⟨true, 200, ["lec1", "bogus"]⟩ ∧ (100 : ℚ) < 200 := by
  refine ⟨?_, by decide, by decide⟩
  unfold update_lecture_progress
  rw [oid_ok hv]
  simp only [hc]
  refine ⟨_, rfl, ?_⟩
  exact List.mem_map.2
    ⟨r, List.mem_filter.2 ⟨mem_upsertLP_of_ne _ _ _ _ _ hr hne, hcomp⟩, rfl⟩

theorem aggregate_counts_nonplaylist_C10_witness :
    (⟨"u1", courseOid, "bogus", 10, true⟩ : LectureProgress) ∈
      (runUpdates db10 "u1" courseOid [upd1, updBogus]).lectureprogress ∧
    ("bogus" ∉ course10.playlist.map Lecture.id) ∧
    ((∃ resp : UpdateResp,
        (update_lecture_progress (runUpdates db10 "u1" courseOid [upd1, updBogus])
          "u1" courseOid upd1).2 = .ok resp ∧
        "bogus" ∈ resp.completed) ∧
      (update_lecture_progress (runUpdates db10 "u1" courseOid [upd1]) "u1" courseOid
        updBogus).2 = .ok ⟨true, 200, ["lec1", "bogus"]⟩ ∧ (100 : ℚ) < 200) :=
  ⟨by decide, by decide,
   aggregate_counts_nonplaylist_C10 (runUpdates db10 "u1" courseOid [upd1, updBogus])
     "u1" courseOid course10 upd1 ⟨"u1", courseOid, "bogus", 10, true⟩
     (by decide) (by decide) (by decide) (by decide) (by decide) (by decide)⟩

/-! ### C5: counterexample, amended theorem, witness -/

/-- C5 counterexample: the stored token of `db5` expires at instant 100, and
authentication at exactly instant 100 — at `expires_at` — still succeeds,
where the claim says the token is rejected with `ExpiredToken` at
`expires_at`.  The code only rejects when `expires_at < now` holds
strictly. -/
theorem requireAuth_at_expiry_C5_counterexample :
    tok5.expires_at = some 100 ∧
    require_auth db5 (some "Bearer t1") 100 = .ok user5 := by decide

/-- C5 (amended): token validity is monotonic in time with acceptance at the
boundary: a stored token with expiry `e` is accepted at every instant `now ≤ e`
— including `now = e` — and rejected with `ExpiredToken` at every instant
strictly after `e`. -/
theorem requireAuth_expiry_monotonic_C5 (db : DB) (h : String) (tok : Token) (u : User)
    (e now : Int)
    (hpre : ("bearer ".data).isPrefixOf (h.data.map lowerChar) = true)
    (htok : db.tokens.find? (fun t => t.token == (⟨dropThroughSpace h.data⟩ : String)) =
      some tok)
    (hexp : tok.expires_at = some e)
    (huser : db.users.find? (fun x => x.id == tok.user_id) = some u) :
    (now ≤ e → require_auth db (some h) now = .ok u) ∧
    (e < now → require_auth db (some h) now = .error .expiredToken) := by
  have hgoal : require_auth db (some h) now =
      (if e < now then .error .expiredToken else lookupAuthUser db tok) := by
    unfold require_auth
    simp only [hpre, htok, hexp, if_true]
  constructor
  · intro hle
    rw [hgoal, if_neg (by omega)]
    unfold lookupAuthUser
    rw [huser]
  · intro hlt
    rw [hgoal, if_pos hlt]

theorem requireAuth_expiry_monotonic_C5_witness :
    tok5.expires_at = some 100 ∧
    ((50 ≤ (100 : Int) → require_auth db5 (some "Bearer t1") 50 = .ok user5) ∧
     ((100 : Int) < 50 → require_auth db5 (some "Bearer t1") 50 = .error .expiredToken)) :=
  ⟨by decide,
   requireAuth_expiry_monotonic_C5 db5 "Bearer t1" tok5 user5 100 50 (by decide) (by decide)
     (by decide) (by decide)⟩

/-! ### C6 and its witness -/

/-- Splitting on a character that does not occur returns the whole list. -/
theorem splitOnChar_not_mem (c : Char) (l : List Char) (h : c ∉ l) :
    splitOnChar c l = [l] := by
  induction l with
  | nil => rfl
  | cons a as ih =>
    rw [splitOnChar, if_neg (by rintro rfl; exact h (List.mem_cons_self _ _)),
      ih (fun hc => h (List.mem_cons_of_mem _ hc))]

/-- Splitting `xs ++ "$" ++ ys` on `"$"` gives exactly the two parts when
neither contains the separator. -/
theorem splitOnChar_append (c : Char) (xs ys : List Char) (hx : c ∉ xs) (hy : c ∉ ys) :
    splitOnChar c (xs ++ c :: ys) = [xs, ys] := by
  induction xs with
  | nil => simp [splitOnChar, splitOnChar_not_mem c ys hy]
  | cons a as ih =>
    rw [List.cons_append, splitOnChar,
      if_neg (by rintro rfl; exact hx (List.mem_cons_self _ _)),
      ih (fun hc => hx (List.mem_cons_of_mem _ hc))]

/-- C6: password hashing round-trips.  With the external sha256 hexdigest
modelled as a function parameter: verification of the very password that was
hashed succeeds (the salt is hexadecimal and the digest is hexadecimal, so
neither contains the `$` delimiter), and — under the idealisation that the
hash function is collision-free — verification of any other password against
that stored value fails. -/
theorem password_roundtrip_C6 (sha : String → String) (salt p p2 : String)
    (hsalt : Char.ofNat 36 ∉ salt.data)
    (hd1 : Char.ofNat 36 ∉ (sha (salt ++ p)).data)
    (hd2 : Char.ofNat 36 ∉ (sha (salt ++ p2)).data)
    (hinj : Function.Injective sha) (hne : p ≠ p2) :
    verify_password sha p (hash_password sha salt p) = true ∧
    verify_password sha p (hash_password sha salt p2) = false := by
  have hdol : ("$" : String).data = [Char.ofNat 36] := by decide
  have hdata : ∀ d : String, (salt ++ "$" ++ d).data = salt.data ++ Char.ofNat 36 :: d.data := by
    intro d
    rw [String.data_append, String.data_append, hdol, List.append_assoc]
    rfl
  have hchar : '$' = Char.ofNat 36 := by decide
  constructor
  · unfold verify_password hash_password
    rw [hdata, hchar, splitOnChar_append _ _ _ hsalt hd1]
    simp
  · unfold verify_password hash_password
    rw [hdata, hchar, splitOnChar_append _ _ _ hsalt hd2]
    simp only [List.map_cons, List.map_nil]
    rw [beq_eq_false_iff_ne]
    intro hcontra
    apply hne
    have hargs : salt ++ p = salt ++ p2 := by
      apply hinj
      have : sha ((⟨salt.data⟩ : String) ++ p) = (⟨(sha (salt ++ p2)).data⟩ : String) := hcontra
      simpa using this
    have hdd := congrArg String.data hargs
    rw [String.data_append, String.data_append] at hdd
    exact String.ext (List.append_cancel_left hdd)

theorem password_roundtrip_C6_witness :
    Function.Injective (id : String → String) ∧ ("x" : String) ≠ "y" ∧
    (verify_password id "x" (hash_password id "ab" "x") = true ∧
     verify_password id "x" (hash_password id "ab" "y") = false) :=
  ⟨Function.injective_id, by decide,
   password_roundtrip_C6 id "ab" "x" "y" (by decide) (by decide) (by decide)
     Function.injective_id (by decide)⟩

/-! ### C8 and its witness -/

/-- `isSubList` decides the contiguous-substring (infix) relation. -/
theorem isSubList_iff (pat l : List Char) : isSubList pat l = true ↔ pat <:+: l := by
  induction l with
  | nil => simp [isSubList, List.isEmpty_iff, List.infix_nil]
  | cons c cs ih =>
    simp [isSubList, Bool.or_eq_true, ih, List.infix_cons_iff, List.isPrefixOf_iff_prefix]

/-- A message containing `"use state"` contains `"state"`. -/
theorem containsSub_use_state {p : String} (h : containsSub p "use state" = true) :
    containsSub p "state" = true := by
  rw [containsSub, isSubList_iff] at h ⊢
  exact List.IsInfix.trans ⟨"use ".data, [], by decide⟩ h

/-- The disjunction of the first rule collapses to its first test. -/
theorem rule1_absorb (p : String) :
    (containsSub p "state" || containsSub p "use state") = containsSub p "state" := by
  cases h : containsSub p "state"
  · cases h2 : containsSub p "use state"
    · rfl
    · exact absurd (containsSub_use_state h2) (by simp [h])
  · rfl

/-- The tip list built by the handler is the one described by the ordered rule
table. -/
theorem tips_eq_matchingTips (p : String) :
    ((if containsSub p "state" || containsSub p "use state" then [tipState] else []) ++
     (if containsSub p "effect" then [tipEffect] else []) ++
     (if containsSub p "performance" || containsSub p "optimize" then [tipPerf] else []))
    = matchingTips p := by
  rw [rule1_absorb, matchingTips, ruleTable]
  cases h1 : containsSub p "state" <;>
    cases h2 : containsSub p "effect" <;>
      cases h3 : containsSub p "performance" <;>
        cases h4 : containsSub p "optimize" <;>
          simp [List.filter_cons, h1, h2, h3, h4]

/-- C8: for every chat message that is answered (any request the handler does
not reject), the reply is the concatenation, in fixed rule order, of the tips
whose keyword occurs as a substring of the lowercased message, joined by a
single space, with the generic tip when no rule matches, and the response
carries at most 2 reference entries; moreover, when a well-formed course id
is supplied and resolves, the call succeeds and the references are drawn
exactly from the first two playlist items in order, each with suggested
timestamp 60. -/
theorem chatbot_rules_C8 (db : DB) (uid : String) (req : ChatRequest) :
    (∀ resp : ChatResp, (chatbot db uid req).2 = .ok resp →
      resp.reply = (if matchingTips (strLower (strTrim req.message)) = []
                    then tipGeneric
                    else String.intercalate " "
                      (matchingTips (strLower (strTrim req.message)))) ∧
      resp.references.length ≤ 2) ∧
    (∀ (cid : String) (course : Course),
      req.course_id = some cid → validOid cid = true →
      db.courses.find? (fun c => c.id == cid) = some course →
      ∃ resp : ChatResp, (chatbot db uid req).2 = .ok resp ∧
        resp.references =
          (course.playlist.take 2).map (fun lec => ⟨lec.id, lec.title, 60⟩)) := by
  constructor
  · intro resp hresp
    unfold chatbot at hresp
    dsimp only at hresp
    rw [tips_eq_matchingTips] at hresp
    split at hresp
    · simp at hresp
    · rename_i refs heq
      dsimp only at hresp
      injection hresp with hresp
      subst hresp
      constructor
      · cases hmt : matchingTips (strLower (strTrim req.message)) with
        | nil => rfl
        | cons t ts => simp [List.isEmpty_iff]
      · show refs.length ≤ 2
        split at heq
        · injection heq with h
          subst h
          simp
        · rename_i cid
          split at heq
          · injection heq with h
            subst h
            simp
          · split at heq
            · simp at heq
            · injection heq with h
              subst h
              split
              · simp
              · rw [List.length_map, List.length_take]
                omega
  · intro cid course hcid hv hfind
    have hcidne : cid ≠ "" := by
      intro hcontra
      rw [hcontra] at hv
      exact absurd hv (by decide)
    unfold chatbot
    rw [hcid]
    simp only [hcidne, if_false, oid_ok hv, hfind]
    exact ⟨_, rfl, rfl⟩

theorem chatbot_rules_C8_witness :
    ((⟨tipState ++ " " ++ tipPerf,
        [⟨"lec1", "Welcome", 60⟩, ⟨"lec2", "Components", 60⟩]⟩ : ChatResp).reply =
      (if matchingTips (strLower (strTrim "how to optimize state updates")) = []
       then tipGeneric
       else String.intercalate " "
         (matchingTips (strLower (strTrim "how to optimize state updates")))) ∧
     ((⟨tipState ++ " " ++ tipPerf,
        [⟨"lec1", "Welcome", 60⟩,
         ⟨"lec2", "Components", 60⟩]⟩ : ChatResp)).references.length ≤ 2) ∧
    ((⟨tipGeneric, []⟩ : ChatResp).reply =
      (if matchingTips (strLower (strTrim "hello")) = []
       then tipGeneric
       else String.intercalate " " (matchingTips (strLower (strTrim "hello")))) ∧
     ((⟨tipGeneric, []⟩ : ChatResp)).references.length ≤ 2) ∧
    (∃ resp : ChatResp,
      (chatbot exDb "u1" ⟨some courseOid, "how to optimize state updates"⟩).2 = .ok resp ∧
      resp.references =
        (exCourse.playlist.take 2).map (fun lec => ⟨lec.id, lec.title, 60⟩)) :=
  ⟨(chatbot_rules_C8 exDb "u1" ⟨some courseOid, "how to optimize state updates"⟩).1
     ⟨tipState ++ " " ++ tipPerf, [⟨"lec1", "Welcome", 60⟩, ⟨"lec2", "Components", 60⟩]⟩
     (by decide),
   (chatbot_rules_C8 exDb "u1" ⟨none, "hello"⟩).1 ⟨tipGeneric, []⟩ (by decide),
   (chatbot_rules_C8 exDb "u1" ⟨some courseOid, "how to optimize state updates"⟩).2
     courseOid exCourse rfl (by decide) (by decide)⟩

/-! ### C2: auxiliary lemmas about the rows of one user and course -/

/-- Every row of `rowsFor` passes the user/course filter. -/
theorem isFor_of_mem_rowsFor {db : DB} {uid cid : String} {r : LectureProgress}
    (h : r ∈ rowsFor db uid cid) : isFor uid cid r = true :=
  (List.mem_filter.1 h).2

/-- Filtering to one user and course commutes with the per-lecture upsert. -/
theorem filter_upsertLP (rows : List LectureProgress) (uid cid : String) (u : ProgressUpdate) :
    (upsertLP rows uid cid u).filter (isFor uid cid) =
      upsertLP (rows.filter (isFor uid cid)) uid cid u := by
  induction rows with
  | nil => simp [upsertLP, List.filter, isFor]
  | cons r rs ih =>
    by_cases h : lpKey uid cid u.lecture_id r = true
    · obtain ⟨⟨h1, h2⟩, h3⟩ :
        (r.user_id = uid ∧ r.course_id = cid) ∧ r.lecture_id = u.lecture_id := by
        simpa [lpKey, isFor] using h
      have hfor : isFor uid cid r = true := by simp [isFor, h1, h2]
      simp only [upsertLP, h, if_true, List.filter_cons, hfor]
      simp [isFor, h1, h2, upsertLP, lpKey, h3]
    · by_cases hfor : isFor uid cid r = true
      · simp only [upsertLP, h, if_false, Bool.false_eq_true, List.filter_cons, hfor, if_true, ih]
      · simp only [upsertLP, h, if_false, Bool.false_eq_true, List.filter_cons, hfor]
        simpa [hfor] using ih

/-- On rows that all belong to (uid, cid), the upsert projects to
`upsertPair` on `(lecture_id, completed)` pairs. -/
theorem map_proj_upsertLP (rows : List LectureProgress) (uid cid : String)
    (u : ProgressUpdate) (hall : ∀ r ∈ rows, isFor uid cid r = true) :
    (upsertLP rows uid cid u).map projLP =
      upsertPair (rows.map projLP) u.lecture_id u.completed := by
  induction rows with
  | nil => simp [upsertLP, upsertPair, projLP]
  | cons r rs ih =>
    have hr : isFor uid cid r = true := hall r (List.mem_cons_self _ _)
    obtain ⟨h1, h2⟩ : r.user_id = uid ∧ r.course_id = cid := by simpa [isFor] using hr
    by_cases h : (r.lecture_id == u.lecture_id) = true
    · have hkey : lpKey uid cid u.lecture_id r = true := by simp [lpKey, isFor, h1, h2, h]
      simp only [upsertLP, hkey, if_true, List.map_cons, upsertPair, projLP]
      simp [h]
    · have hkey : lpKey uid cid u.lecture_id r = false := by
        simp only [lpKey, isFor]
        simp [h1, h2, h]
      simp only [upsertLP, hkey, if_false, Bool.false_eq_true, List.map_cons, upsertPair,
        projLP, h]
      simpa using ih (fun x hx => hall x (List.mem_cons_of_mem _ hx))

/-- The post-state of `update_lecture_progress` carries exactly the upserted
per-lecture rows, on every path. -/
theorem lectureprogress_update (db : DB) (uid cid : String) (u : ProgressUpdate) :
    ((update_lecture_progress db uid cid u).1).lectureprogress =
      upsertLP db.lectureprogress uid cid u := by
  unfold update_lecture_progress
  split
  · rfl
  · dsimp only
    split <;> rfl

/-- `update_lecture_progress` never touches the course collection. -/
theorem courses_update (db : DB) (uid cid : String) (u : ProgressUpdate) :
    ((update_lecture_progress db uid cid u).1).courses = db.courses := by
  unfold update_lecture_progress
  split
  · rfl
  · dsimp only
    split <;> rfl

/-- Neither does a whole sequence of updates. -/
theorem courses_runUpdates (db : DB) (uid cid : String) (us : List ProgressUpdate) :
    (runUpdates db uid cid us).courses = db.courses := by
  induction us generalizing db with
  | nil => rfl
  | cons u us ih =>
    have h : runUpdates db uid cid (u :: us) =
        runUpdates ((update_lecture_progress db uid cid u).1) uid cid us := rfl
    rw [h, ih, courses_update]

/-- One update step acts on the user's rows for the course as the upsert. -/
theorem rowsFor_update (db : DB) (uid cid : String) (u : ProgressUpdate) :
    rowsFor ((update_lecture_progress db uid cid u).1) uid cid =
      upsertLP (rowsFor db uid cid) uid cid u := by
  simp only [rowsFor]
  rw [lectureprogress_update, filter_upsertLP]

/-- Projected to `(lecture_id, completed)` pairs, running a sequence of
updates is the fold of `upsertPair`. -/
theorem proj_rowsFor_runUpdates (uid cid : String) (us : List ProgressUpdate) :
    ∀ db : DB, (rowsFor (runUpdates db uid cid us) uid cid).map projLP =
      mstateFrom ((rowsFor db uid cid).map projLP) us := by
  induction us with
  | nil => intro db; rfl
  | cons u us ih =>
    intro db
    have h1 : runUpdates db uid cid (u :: us) =
        runUpdates ((update_lecture_progress db uid cid u).1) uid cid us := rfl
    rw [h1, ih]
    have h2 : (rowsFor ((update_lecture_progress db uid cid u).1) uid cid).map projLP =
        upsertPair ((rowsFor db uid cid).map projLP) u.lecture_id u.completed := by
      rw [rowsFor_update]
      exact map_proj_upsertLP _ _ _ _ (fun r hr => isFor_of_mem_rowsFor hr)
    rw [h2]
    rfl

/-! ### C2: auxiliary lemmas about the pure projected state -/

/-- `List.lookup` after one pair upsert. -/
theorem lookup_upsertPair (st : List (String × Bool)) (lid : String) (c : Bool) (x : String) :
    (upsertPair st lid c).lookup x = if x = lid then some c else st.lookup x := by
  induction st with
  | nil =>
    rw [upsertPair, List.lookup_cons, List.lookup_nil]
    by_cases hx : x = lid
    · rw [if_pos hx, show (x == lid) = true by simpa using hx]
    · rw [if_neg hx, show (x == lid) = false by simpa using hx]
  | cons p ps ih =>
    obtain ⟨k, b⟩ := p
    rw [upsertPair]
    by_cases hp : (k == lid) = true
    · have hpe : k = lid := by simpa using hp
      rw [if_pos hp, List.lookup_cons, List.lookup_cons]
      by_cases hx : x = lid
      · rw [if_pos hx, show (x == k) = true by simp [hpe, hx]]
      · rw [if_neg hx, show (x == k) = false by simp [hpe, hx]]
    · rw [if_neg hp, List.lookup_cons, List.lookup_cons]
      by_cases hx : x = k
      · have hxl : ¬ x = lid := by
          subst hx
          simpa using hp
        rw [show (x == k) = true by simpa using hx, if_neg hxl]
      · rw [show (x == k) = false by simpa using hx, ih]

/-- Key membership after one pair upsert. -/
theorem mem_fst_upsertPair (st : List (String × Bool)) (lid : String) (c : Bool) (x : String) :
    x ∈ (upsertPair st lid c).map Prod.fst ↔ x ∈ st.map Prod.fst ∨ x = lid := by
  induction st with
  | nil => simp [upsertPair]
  | cons p ps ih =>
    obtain ⟨k, b⟩ := p
    rw [upsertPair]
    by_cases hp : (k == lid) = true
    · have hpe : k = lid := by simpa using hp
      rw [if_pos hp]
      simp only [List.map_cons, List.mem_cons, hpe]
      tauto
    · rw [if_neg hp]
      simp only [List.map_cons, List.mem_cons, ih]
      tauto

/-- The pair upsert preserves distinctness of the keys. -/
theorem nodup_fst_upsertPair (st : List (String × Bool)) (lid : String) (c : Bool)
    (h : (st.map Prod.fst).Nodup) : ((upsertPair st lid c).map Prod.fst).Nodup := by
  induction st with
  | nil => simp [upsertPair]
  | cons p ps ih =>
    obtain ⟨k, b⟩ := p
    rw [List.map_cons, List.nodup_cons] at h
    rw [upsertPair]
    by_cases hp : (k == lid) = true
    · rw [if_pos hp]
      simp only [List.map_cons, List.nodup_cons]
      exact ⟨h.1, h.2⟩
    · rw [if_neg hp]
      simp only [List.map_cons, List.nodup_cons]
      refine ⟨?_, ih h.2⟩
      intro hc
      rcases (mem_fst_upsertPair _ _ _ _).1 hc with hc' | hc'
      · exact h.1 hc'
      · rw [hc'] at hp
        simp at hp

/-- Folding from the right: the state after `us ++ [u]`. -/
theorem mstateFrom_append (st : List (String × Bool)) (us : List ProgressUpdate)
    (u : ProgressUpdate) :
    mstateFrom st (us ++ [u]) =
      upsertPair (mstateFrom st us) u.lecture_id u.completed := by
  simp [mstateFrom, List.foldl_append]

/-- The latest write after appending one more update. -/
theorem latestCompleted_append (us : List ProgressUpdate) (u : ProgressUpdate) (x : String) :
    latestCompleted (us ++ [u]) x =
      if u.lecture_id == x then u.completed else latestCompleted us x := by
  unfold latestCompleted
  rw [List.reverse_append]
  cases h : (u.lecture_id == x) <;> simp [List.find?_cons, h]

/-- The projected state always has pairwise-distinct keys. -/
theorem nodup_fst_mstateFrom (us : List ProgressUpdate) :
    ∀ st : List (String × Bool), (st.map Prod.fst).Nodup →
      ((mstateFrom st us).map Prod.fst).Nodup := by
  induction us with
  | nil => intro st h; exact h
  | cons u us ih => intro st h; exact ih _ (nodup_fst_upsertPair _ _ _ h)

/-- The keys of the projected state are the written lecture ids. -/
theorem mem_fst_mstateFrom (us : List ProgressUpdate) :
    ∀ (st : List (String × Bool)) (x : String),
      x ∈ (mstateFrom st us).map Prod.fst ↔
        x ∈ st.map Prod.fst ∨ x ∈ us.map (fun v => v.lecture_id) := by
  induction us with
  | nil => intro st x; simp [mstateFrom]
  | cons u us ih =>
    intro st x
    rw [show mstateFrom st (u :: us) =
        mstateFrom (upsertPair st u.lecture_id u.completed) us from rfl, ih,
      mem_fst_upsertPair]
    simp only [List.map_cons, List.mem_cons]
    tauto

/-- The value stored for a key is the completion flag of its latest write. -/
theorem lookup_mstate (us : List ProgressUpdate) (x : String) :
    (mstate us).lookup x =
      if x ∈ us.map (fun v => v.lecture_id) then some (latestCompleted us x) else none := by
  induction us using List.reverseRecOn with
  | nil => simp [mstate, mstateFrom, latestCompleted]
  | append_singleton us u ih =>
    rw [show mstate (us ++ [u]) = upsertPair (mstate us) u.lecture_id u.completed from
      mstateFrom_append [] us u]
    rw [lookup_upsertPair, latestCompleted_append]
    by_cases hx : x = u.lecture_id
    · subst hx
      simp
    · rw [if_neg hx, ih, show (u.lecture_id == x) = false by simpa using fun h => hx h.symm]
      by_cases hm : x ∈ us.map (fun v => v.lecture_id)
      · simp [hm]
      · simp [hm, hx]

/-- In a state with distinct keys, membership determines the lookup. -/
theorem lookup_of_mem_nodup (st : List (String × Bool)) (p : String × Bool)
    (hnd : (st.map Prod.fst).Nodup) (hm : p ∈ st) : st.lookup p.1 = some p.2 := by
  induction st with
  | nil => cases hm
  | cons q qs ih =>
    rw [List.map_cons, List.nodup_cons] at hnd
    rcases List.mem_cons.1 hm with rfl | hm'
    · simp [List.lookup]
    · have hne : p.1 ≠ q.1 := by
        intro he
        exact hnd.1 (he ▸ List.mem_map.2 ⟨p, hm', rfl⟩)
      simp only [List.lookup]
      rw [show (p.1 == q.1) = false by simpa using hne]
      exact ih hnd.2 hm'

/-- The completed count of the projected state is the specification's `K`. -/
theorem countP_snd_mstate (us : List ProgressUpdate) :
    (mstate us).countP (fun p => p.2) = distinctCompleted us := by
  have hnd : ((mstate us).map Prod.fst).Nodup := nodup_fst_mstateFrom us [] (by simp)
  have hval : ∀ p ∈ mstate us, p.2 = latestCompleted us p.1 := by
    intro p hp
    have h1 := lookup_of_mem_nodup _ p hnd hp
    have hmem : p.1 ∈ us.map (fun v => v.lecture_id) := by
      have h2 := (mem_fst_mstateFrom us [] p.1).1 (List.mem_map.2 ⟨p, hp, rfl⟩)
      simpa using h2
    rw [lookup_mstate, if_pos hmem] at h1
    exact (Option.some.inj h1).symm
  have hperm : List.Perm ((mstate us).map Prod.fst) ((us.map (fun v => v.lecture_id)).dedup) := by
    rw [List.perm_ext_iff_of_nodup hnd (List.nodup_dedup _)]
    intro a
    rw [List.mem_dedup, show mstate us = mstateFrom [] us from rfl,
      mem_fst_mstateFrom us [] a]
    simp
  calc (mstate us).countP (fun p => p.2)
      = (mstate us).countP (fun p => latestCompleted us p.1) :=
        List.countP_congr (fun p hp => by rw [hval p hp])
    _ = ((mstate us).map Prod.fst).countP (latestCompleted us) := by
        rw [List.countP_map]
        rfl
    _ = ((us.map (fun v => v.lecture_id)).dedup).countP (latestCompleted us) :=
        hperm.countP_eq _
    _ = distinctCompleted us := rfl

/-- The length of the handler's completed-ids list, via the projection. -/
theorem completed_count (db : DB) (uid cid : String) :
    ((db.lectureprogress.filter (isForCompleted uid cid)).map
        (fun lp => lp.lecture_id)).length =
      ((rowsFor db uid cid).map projLP).countP (fun p => p.2) := by
  rw [List.length_map, rowsFor, ← List.countP_eq_length_filter, List.countP_map,
    List.countP_filter]
  exact List.countP_congr (fun r _ => by simp [isForCompleted, projLP, Bool.and_comm])

/-! ### C2 and its witness -/

/-- C2: starting from a course the user has not touched, after any sequence of
`update_lecture_progress` calls for that user and course, the percentage
returned by the last call and the one stored in the summary row both equal
`round(100·K/max(1,N), 2)`, where `N` is the playlist length and `K` counts
the distinct lecture ids whose latest write has `completed=true`; the stored
completed list has exactly `K` entries, so re-submitting an already completed
lecture does not double-count (one row per (user, course, lecture)). -/
theorem updateLectureProgress_aggregate_C2 (db0 : DB) (uid cid : String)
    (course : Course) (us : List ProgressUpdate) (u : ProgressUpdate)
    (hv : validOid cid = true)
    (hc : db0.courses.find? (fun c => c.id == cid) = some course)
    (h0 : rowsFor db0 uid cid = []) :
    ∃ ids : List String,
      (update_lecture_progress (runUpdates db0 uid cid us) uid cid u).2 =
        .ok ⟨true, round2 (100 * (distinctCompleted (us ++ [u]) : ℚ) /
          (max 1 course.playlist.length : ℕ)), ids⟩ ∧
      findCP (runUpdates db0 uid cid (us ++ [u])) uid cid =
        some ⟨uid, cid, ids, round2 (100 * (distinctCompleted (us ++ [u]) : ℚ) /
          (max 1 course.playlist.length : ℕ))⟩ ∧
      ids.length = distinctCompleted (us ++ [u]) := by
  have hrun : runUpdates db0 uid cid (us ++ [u]) =
      (update_lecture_progress (runUpdates db0 uid cid us) uid cid u).1 := by
    rw [runUpdates, List.foldl_append]
    rfl
  have hcn : (runUpdates db0 uid cid us).courses.find? (fun c => c.id == cid) =
      some course := by
    rw [courses_runUpdates]
    exact hc
  have hproj : (rowsFor (runUpdates db0 uid cid (us ++ [u])) uid cid).map projLP =
      mstate (us ++ [u]) := by
    rw [proj_rowsFor_runUpdates, h0]
    rfl
  have hK : (((runUpdates db0 uid cid (us ++ [u])).lectureprogress.filter
      (isForCompleted uid cid)).map (fun lp => lp.lecture_id)).length =
      distinctCompleted (us ++ [u]) := by
    rw [completed_count, hproj, countP_snd_mstate]
  have hlp : (runUpdates db0 uid cid (us ++ [u])).lectureprogress =
      upsertLP (runUpdates db0 uid cid us).lectureprogress uid cid u := by
    rw [hrun, lectureprogress_update]
  have hK' : (((upsertLP (runUpdates db0 uid cid us).lectureprogress uid cid u).filter
      (isForCompleted uid cid)).map (fun lp => lp.lecture_id)).length =
      distinctCompleted (us ++ [u]) := by
    rw [← hlp]
    exact hK
  refine ⟨((upsertLP (runUpdates db0 uid cid us).lectureprogress uid cid u).filter
      (isForCompleted uid cid)).map (fun lp => lp.lecture_id), ?_, ?_, ?_⟩
  · unfold update_lecture_progress
    rw [oid_ok hv]
    simp only [hcn]
    rw [hK', mkRat_hundred]
  · rw [findCP, hrun]
    unfold update_lecture_progress
    rw [oid_ok hv]
    simp only [hcn]
    rw [find?_upsertCP, hK', mkRat_hundred]
  · exact hK'

theorem updateLectureProgress_aggregate_C2_witness :
    validOid courseOid = true ∧ rowsFor exDb "u1" courseOid = [] ∧
    (∃ ids : List String,
      (update_lecture_progress (runUpdates exDb "u1" courseOid [upd1, upd2])
          "u1" courseOid upd1).2 =
        .ok ⟨true, round2 (100 * (distinctCompleted ([upd1, upd2] ++ [upd1]) : ℚ) /
          (max 1 exCourse.playlist.length : ℕ)), ids⟩ ∧
      findCP (runUpdates exDb "u1" courseOid ([upd1, upd2] ++ [upd1])) "u1" courseOid =
        some ⟨"u1", courseOid, ids,
          round2 (100 * (distinctCompleted ([upd1, upd2] ++ [upd1]) : ℚ) /
            (max 1 exCourse.playlist.length : ℕ))⟩ ∧
      ids.length = distinctCompleted ([upd1, upd2] ++ [upd1])) ∧
    (update_lecture_progress exDb "u1" courseOid upd1).2 =
      .ok ⟨true, mkRat 3333 100, ["lec1"]⟩ ∧
    (update_lecture_progress (runUpdates exDb "u1" courseOid [upd1]) "u1" courseOid upd2).2 =
      .ok ⟨true, mkRat 6667 100, ["lec1", "lec2"]⟩ ∧
    (update_lecture_progress (runUpdates exDb "u1" courseOid [upd1, upd2])
        "u1" courseOid upd1).2 =
      .ok ⟨true, mkRat 6667 100, ["lec1", "lec2"]⟩ :=
  ⟨by decide, by decide,
   updateLectureProgress_aggregate_C2 exDb "u1" courseOid exCourse [upd1, upd2] upd1
     (by decide) (by decide) (by decide),
   by decide, by decide, by decide⟩

end LearnHub

